import Mathlib

/-!
Verification of the rclone driver (src/utils/rclone.js) of RcloneTray.

JavaScript strings are modelled as lists of characters (`Str`); machine-level
byte handling (UTF-8, base64) uses `Nat` values below 256.  External
collaborators (the JSON codec of the runtime, the semver library, the fetch
HTTP client and its AbortController) are modelled from their documented
behaviour; everything else is translated directly from the source.
-/

namespace RcloneTray

/-- JavaScript strings, modelled as lists of characters. -/
abbrev Str := List Char

/-- Embed a Lean string literal as a JS string. -/
def str (s : String) : Str := s.data

/-- JS String.prototype.includes: does s contain pat as a contiguous run? -/
def strIncludes (s pat : Str) : Bool :=
  match s with
  | [] => pat.isEmpty
  | _ :: t => pat.isPrefixOf s || strIncludes t pat

/-- JS String.prototype.trim: strip whitespace from both ends. -/
def jsTrim (s : Str) : Str :=
  ((s.dropWhile Char.isWhitespace).reverse.dropWhile Char.isWhitespace).reverse

/-- JS String.prototype.indexOf for a single character, with none for -1. -/
def idxOf (c : Char) : Str → Option Nat
  | [] => none
  | d :: t => if d = c then some 0 else (idxOf c t).map (· + 1)

theorem idxOf_lt_length {c : Char} : ∀ {s : Str} {n : Nat}, idxOf c s = some n → n < s.length := by
  intro s
  induction s with
  | nil => intro n h; simp [idxOf] at h
  | cons d t ih =>
    intro n h
    by_cases hd : d = c
    · simp [idxOf, hd] at h
      simp
      omega
    · simp [idxOf, hd] at h
      obtain ⟨m, hm, rfl⟩ := h
      have := ih hm
      simp
      omega

theorem idxOf_split {c : Char} : ∀ {s : Str} {n : Nat}, idxOf c s = some n →
    s = s.take n ++ c :: s.drop (n + 1) ∧ c ∉ s.take n := by
  intro s
  induction s with
  | nil => intro n h; simp [idxOf] at h
  | cons d t ih =>
    intro n h
    by_cases hd : d = c
    · simp [idxOf, hd] at h
      subst h
      simp [hd]
    · simp [idxOf, hd] at h
      obtain ⟨m, hm, rfl⟩ := h
      obtain ⟨h1, h2⟩ := ih hm
      constructor
      · simpa [List.take, List.drop] using congrArg (d :: ·) h1
      · simp [List.take]
        exact ⟨fun hh => hd hh.symm, h2⟩

theorem idxOf_none {c : Char} : ∀ {s : Str}, idxOf c s = none → c ∉ s := by
  intro s
  induction s with
  | nil => intro _; simp
  | cons d t ih =>
    intro h
    by_cases hd : d = c
    · simp [idxOf, hd] at h
    · simp [idxOf, hd] at h
      simp
      exact ⟨fun hh => hd hh.symm, ih h⟩

/-! ## LineFramer: streamReadlineHandler's inner loop.

The source keeps a backlog; on each data chunk it appends the chunk, then
repeatedly cuts the backlog at the first newline and emits the piece before
it; on stream end it emits a non-empty leftover backlog as a final line. -/

/-- The while-loop of streamReadlineHandler: repeatedly cut the backlog at its
first newline, emitting each complete line; return the emitted lines and the
remaining backlog. -/
def drainLines (backlog : Str) : List Str × Str :=
  match h : idxOf '\n' backlog with
  | none => ([], backlog)
  | some n =>
    let line := backlog.take n
    let rest := backlog.drop (n + 1)
    let out := drainLines rest
    (line :: out.1, out.2)
termination_by backlog.length
decreasing_by
  have hn := idxOf_lt_length h
  simp
  omega

/-- Feed a list of data chunks through the stream handler state, returning the
lines emitted by the while-loop and the final backlog. -/
def feedAll : Str → List Str → List Str × Str
  | backlog, [] => ([], backlog)
  | backlog, chunk :: rest =>
    let fst := drainLines (backlog ++ chunk)
    let snd := feedAll fst.2 rest
    (fst.1 ++ snd.1, snd.2)

/-- streamReadlineHandler over a whole stream: feed every chunk, then on end
of stream flush a non-empty backlog as a final line (JS truthiness: the empty
string is falsy, so an empty backlog is not flushed). -/
def lineFramer (chunks : List Str) : List Str :=
  let run := feedAll [] chunks
  run.1 ++ (if run.2 = [] then [] else [run.2])

/-- Rejoin lines with a newline separator (the spec's reading of the framer
output). -/
def joinNl : List Str → Str
  | [] => []
  | [l] => l
  | l :: ls => l ++ '\n' :: joinNl ls

/-- Each emitted line followed by its terminating newline, concatenated. -/
def joinNlTerm (ls : List Str) : Str := (ls.map (· ++ ['\n'])).flatten

theorem drainLines_spec : ∀ (backlog : Str),
    joinNlTerm (drainLines backlog).1 ++ (drainLines backlog).2 = backlog ∧
    '\n' ∉ (drainLines backlog).2 ∧
    ∀ l ∈ (drainLines backlog).1, '\n' ∉ l := by
  intro backlog
  induction backlog using drainLines.induct with
  | case1 backlog h =>
    rw [drainLines, h]
    exact ⟨by simp [joinNlTerm], idxOf_none h, by simp⟩
  | case2 backlog n h rest ih =>
    rw [drainLines, h]
    obtain ⟨ih1, ih2, ih3⟩ := ih
    obtain ⟨hsplit, hclean⟩ := idxOf_split h
    refine ⟨?_, ih2, ?_⟩
    · show joinNlTerm (backlog.take n :: (drainLines rest).1) ++ (drainLines rest).2 = backlog
      have hj : joinNlTerm (backlog.take n :: (drainLines rest).1) =
          backlog.take n ++ '\n' :: joinNlTerm (drainLines rest).1 := by
        simp [joinNlTerm]
      rw [hj]
      conv_rhs => rw [hsplit]
      simp [rest, ih1]
    · intro l hl
      rcases List.mem_cons.mp hl with h1 | h2
      · subst h1; exact hclean
      · exact ih3 l h2

theorem joinNlTerm_append (a b : List Str) :
    joinNlTerm (a ++ b) = joinNlTerm a ++ joinNlTerm b := by
  simp [joinNlTerm]

theorem feedAll_spec : ∀ (chunks : List Str) (backlog : Str), '\n' ∉ backlog →
    joinNlTerm (feedAll backlog chunks).1 ++ (feedAll backlog chunks).2 =
      backlog ++ chunks.flatten ∧
    '\n' ∉ (feedAll backlog chunks).2 ∧
    ∀ l ∈ (feedAll backlog chunks).1, '\n' ∉ l := by
  intro chunks
  induction chunks with
  | nil =>
    intro backlog hb
    exact ⟨by simp [feedAll, joinNlTerm], hb, by simp [feedAll]⟩
  | cons chunk rest ih =>
    intro backlog _
    obtain ⟨d1, d2, d3⟩ := drainLines_spec (backlog ++ chunk)
    obtain ⟨f1, f2, f3⟩ := ih (drainLines (backlog ++ chunk)).2 d2
    refine ⟨?_, f2, ?_⟩
    · show joinNlTerm ((drainLines (backlog ++ chunk)).1 ++
          (feedAll (drainLines (backlog ++ chunk)).2 rest).1) ++
          (feedAll (drainLines (backlog ++ chunk)).2 rest).2 =
          backlog ++ (chunk :: rest).flatten
      rw [joinNlTerm_append, List.append_assoc, f1, ← List.append_assoc, d1]
      simp
    · intro l hl
      rcases List.mem_append.mp hl with h1 | h2
      · exact d3 l h1
      · exact f3 l h2

theorem joinNl_append_singleton : ∀ (ls : List Str) (b : Str),
    joinNl (ls ++ [b]) = joinNlTerm ls ++ b := by
  intro ls
  induction ls with
  | nil => intro b; simp [joinNl, joinNlTerm]
  | cons l ls ih =>
    intro b
    cases ls with
    | nil => simp [joinNl, joinNlTerm]
    | cons m ls' =>
      have := ih b
      simp [joinNl, joinNlTerm] at this ⊢
      simp [this]

theorem joinNlTerm_eq_joinNl : ∀ (ls : List Str), ls ≠ [] →
    joinNlTerm ls = joinNl ls ++ ['\n'] := by
  intro ls
  induction ls with
  | nil => intro h; exact absurd rfl h
  | cons l ls ih =>
    intro _
    cases ls with
    | nil => simp [joinNl, joinNlTerm]
    | cons m ls' =>
      have := ih (by simp)
      simp [joinNl, joinNlTerm] at this ⊢
      simp [this]

/-- C3: For every finite sequence of chunks fed to the line framer followed by
end-of-stream, the emitted lines rejoined with newline equal the concatenation
of the input chunks, modulo a possible missing trailing newline, and every
emitted line is a complete line (it contains no newline), which pins each line
down as emitted exactly once, in order, with empty lines preserved and a
non-empty unterminated trailing line flushed at end-of-stream. -/
theorem claim_C3_lineFramer (chunks : List Str) :
    (joinNl (lineFramer chunks) = chunks.flatten ∨
      joinNl (lineFramer chunks) ++ ['\n'] = chunks.flatten) ∧
    ∀ l ∈ lineFramer chunks, '\n' ∉ l := by
  obtain ⟨h1, h2, h3⟩ := feedAll_spec chunks [] (by simp)
  rw [List.nil_append] at h1
  by_cases hb : (feedAll [] chunks).2 = []
  · rw [hb, List.append_nil] at h1
    constructor
    · by_cases hl : (feedAll [] chunks).1 = []
      · left
        have hflat : chunks.flatten = [] := by
          rw [← h1, hl]; simp [joinNlTerm]
        rw [lineFramer]
        simp [hb, hl, joinNl, hflat]
      · right
        rw [lineFramer]
        simp [hb]
        rw [← joinNlTerm_eq_joinNl _ hl]
        exact h1
    · intro l hl
      rw [lineFramer] at hl
      simp [hb] at hl
      exact h3 l hl
  · constructor
    · left
      rw [lineFramer]
      simp [hb]
      rw [joinNl_append_singleton]
      exact h1
    · intro l hl
      rw [lineFramer] at hl
      simp [hb] at hl
      rcases hl with h | h
      · exact h3 l h
      · subst h; exact h2

/-! ## DaemonSupervisor: the rcd life-cycle listener (emitReady).

The emitReady handler is registered once as the data listener of the daemon
process handle.  On a ready match it unregisters itself and emits the ready
signal with the message text after the 26-character marker sentence; on a
start-failure match it emits the error signal and invokes kill(1).  Nothing
in the source unregisters the handler on the failure path. -/

/-- One structured log record, per the LogMessage typedef of the source. -/
structure LogMessage where
  level : Str
  msg : Str
  source : Str
  time : Str
deriving DecidableEq

/-- Signals emitted on the process handle by emitReady. -/
inductive Signal where
  | ready (addr : Str)
  | startError (msg : Str)
deriving DecidableEq

/-- Supervisor observable state: whether emitReady is still registered as the
data listener, how many times kill(1) ran, and the signals emitted so far. -/
structure SupState where
  listening : Bool
  kills : Nat
  signals : List Signal
deriving DecidableEq

/-- The ready condition of emitReady: data.source.startsWith the rcserver
module marker and data.msg.startsWith the serving marker. -/
def readyMatch (data : LogMessage) : Bool :=
  (str "rcserver/rcserver.go").isPrefixOf data.source &&
    (str "Serving remote control").isPrefixOf data.msg

/-- The failure condition of emitReady: data.msg.includes the failure text. -/
def failMatch (data : LogMessage) : Bool :=
  strIncludes data.msg (str "Failed to start remote control:")

/-- The body of the emitReady handler, translated from the source: the ready
branch unregisters the listener and emits ready with msg.slice(26); the
failure branch emits the error signal and calls kill(1). -/
def emitReady (st : SupState) (data : LogMessage) : SupState :=
  if readyMatch data then
    { st with listening := false,
              signals := st.signals ++ [Signal.ready (data.msg.drop 26)] }
  else if failMatch data then
    { st with signals := st.signals ++ [Signal.startError data.msg],
              kills := st.kills + 1 }
  else st

/-- Event dispatch: a published LogMessage reaches the handler body only while
the handler is registered. -/
def deliver (st : SupState) (data : LogMessage) : SupState :=
  if st.listening then emitReady st data else st

/-- State right after rcd wires proc.on data emitReady. -/
def initialSup : SupState := { listening := true, kills := 0, signals := [] }

/-- Run the supervisor over a whole sequence of published LogMessages. -/
def runSupervisor (msgs : List LogMessage) : SupState :=
  msgs.foldl deliver initialSup

/-- The payloads of the ready signals among a signal list, in order. -/
def readyPayloads : List Signal → List Str
  | [] => []
  | Signal.ready a :: t => a :: readyPayloads t
  | Signal.startError _ :: t => readyPayloads t

theorem readyPayloads_append (a b : List Signal) :
    readyPayloads (a ++ b) = readyPayloads a ++ readyPayloads b := by
  induction a with
  | nil => simp [readyPayloads]
  | cons s t ih => cases s <;> simp [readyPayloads, ih]

theorem foldl_deliver_dead : ∀ (msgs : List LogMessage) (st : SupState),
    st.listening = false → msgs.foldl deliver st = st := by
  intro msgs
  induction msgs with
  | nil => intro st _; rfl
  | cons m rest ih =>
    intro st h
    have : deliver st m = st := by simp [deliver, h]
    rw [List.foldl_cons, this]
    exact ih st h

theorem foldl_deliver_live : ∀ (msgs : List LogMessage) (st : SupState),
    st.listening = true →
    readyPayloads (msgs.foldl deliver st).signals =
      readyPayloads st.signals ++
        ((msgs.find? readyMatch).map (fun m => m.msg.drop 26)).toList := by
  intro msgs
  induction msgs with
  | nil => intro st _; simp
  | cons m rest ih =>
    intro st h
    rw [List.foldl_cons]
    by_cases hr : readyMatch m
    · have hd : deliver st m =
          { st with listening := false,
                    signals := st.signals ++ [Signal.ready (m.msg.drop 26)] } := by
        simp [deliver, h, emitReady, hr]
      rw [hd, foldl_deliver_dead rest _ rfl]
      simp [List.find?_cons_of_pos _ hr, readyPayloads_append, readyPayloads]
    · rw [List.find?_cons_of_neg _ hr]
      by_cases hf : failMatch m
      · have hd : deliver st m =
            { st with signals := st.signals ++ [Signal.startError m.msg],
                      kills := st.kills + 1 } := by
          simp [deliver, h, emitReady, hr, hf]
        rw [hd, ih _ (by simp [h])]
        simp [readyPayloads_append, readyPayloads]
      · have hd : deliver st m = st := by
          simp [deliver, h, emitReady, hr, hf]
        rw [hd, ih _ h]

/-- C1: The Ready signal fires exactly once per daemon process lifetime: its
payload list over any published message sequence is exactly the text after the
26-character marker of the first message whose source starts with the rcserver
module marker and whose msg starts with the serving marker (empty if no message
ever matches); in particular it never fires twice. -/
theorem claim_C1_ready_once (msgs : List LogMessage) :
    readyPayloads (runSupervisor msgs).signals =
      ((msgs.find? readyMatch).map (fun m => m.msg.drop 26)).toList ∧
    (readyPayloads (runSupervisor msgs).signals).length ≤ 1 := by
  have h := foldl_deliver_live msgs initialSup rfl
  rw [runSupervisor]
  constructor
  · rw [h]
    simp [initialSup, readyPayloads]
  · rw [h]
    simp only [initialSup, readyPayloads, List.nil_append]
    cases msgs.find? readyMatch <;> simp

/-- C2 counterexample: feeding a start-failure line and then a ready line, the
supervisor emits the failure signal and afterwards still fires Ready — the
detection listener is not unregistered on the failure branch, refuting the
claim that after a Start-failure no Ready can fire. -/
theorem claim_C2_counterexample :
    (runSupervisor
      [{ level := str "error",
         msg := str "Failed to start remote control: address already in use",
         source := str "http", time := str "t1" },
       { level := str "info",
         msg := str "Serving remote control on http://127.0.0.1:5572/",
         source := str "rcserver/rcserver.go", time := str "t2" }]).signals =
      [Signal.startError (str "Failed to start remote control: address already in use"),
       Signal.ready (str "http://127.0.0.1:5572/")] := by
  decide

/-- C2 amended: a message delivered while the listener is registered whose msg
contains the failure marker (and does not match the ready pattern) emits the
Start-failure signal with the message text as payload and invokes kill(1)
immediately; the detection listener is unregistered only by a Ready match, so
after a Start-failure the detection stays active for later deliveries, while
after Ready no delivery has any effect. -/
theorem claim_C2_start_failure (st : SupState) (data : LogMessage) :
    (st.listening = true → readyMatch data = false → failMatch data = true →
      deliver st data =
        { st with signals := st.signals ++ [Signal.startError data.msg],
                  kills := st.kills + 1 }) ∧
    (st.listening = true → readyMatch data = false → failMatch data = true →
      (deliver st data).listening = true) ∧
    (st.listening = false → deliver st data = st) := by
  refine ⟨?_, ?_, ?_⟩
  · intro h hr hf
    simp [deliver, h, emitReady, hr, hf]
  · intro h hr hf
    simp [deliver, h, emitReady, hr, hf]
  · intro h
    simp [deliver, h]

/-- C2 witness: the amended theorem applied at the failure line of the spec
example, starting from the freshly wired supervisor state. -/
theorem claim_C2_start_failure_witness :
    deliver initialSup
      { level := str "error",
        msg := str "Failed to start remote control: address already in use",
        source := str "http", time := str "t1" } =
      { listening := true, kills := 1,
        signals := [Signal.startError
          (str "Failed to start remote control: address already in use")] } := by
  have h := (claim_C2_start_failure initialSup
    { level := str "error",
      msg := str "Failed to start remote control: address already in use",
      source := str "http", time := str "t1" }).1 rfl (by decide) (by decide)
  rw [h]
  decide

/-! ## Log-line decoding: rcdJsonParser and the dynamic view of emitReady.

The runtime JSON codec is external, so JSON values are modelled by an
inductive and the parser is a parameter; rcdJsonParser itself only chooses
between the parsed value and the synthetic fallback record. -/

/-- JSON values as produced by the runtime parser. -/
inductive Json where
  | null
  | bool (b : Bool)
  | num (n : Int)
  | str (s : Str)
  | arr (elems : List Json)
  | obj (fields : List (Str × Json))

/-- rcdJsonParser, translated from the source: try the runtime JSON parse of
the line; on failure return the synthetic error-level record carrying the raw
text and the current timestamp.  The parse itself (runtime JSON.parse) and the
clock are parameters.  The function is total: no line is dropped and no parse
exception escapes. -/
def rcdJsonParser (parse : Str → Option Json) (now : Str) (text : Str) : Json :=
  match parse text with
  | some v => v
  | none => Json.obj
      [(str "level", Json.str (str "error")),
       (str "source", Json.str []),
       (str "time", Json.str now),
       (str "msg", Json.str text)]

/-- First binding of a key among an object's fields. -/
def lookupField : List (Str × Json) → Str → Option Json
  | [], _ => none
  | (k, v) :: t, key => if k = key then some v else lookupField t key

/-- Read a field of a JSON value, when it is an object. -/
def jsonGet : Json → Str → Option Json
  | Json.obj fs, key => lookupField fs key
  | _, _ => none

/-- C4: for every log line on which the runtime JSON parse fails, the
published value is the synthetic LogMessage with level error, empty source,
the current timestamp, and the raw line text as msg; rcdJsonParser is total,
so no line is dropped and no parse exception reaches the caller. -/
theorem claim_C4_parse_fallback (parse : Str → Option Json) (now text : Str)
    (h : parse text = none) :
    jsonGet (rcdJsonParser parse now text) (str "level") =
      some (Json.str (str "error")) ∧
    jsonGet (rcdJsonParser parse now text) (str "source") = some (Json.str []) ∧
    jsonGet (rcdJsonParser parse now text) (str "time") = some (Json.str now) ∧
    jsonGet (rcdJsonParser parse now text) (str "msg") = some (Json.str text) := by
  simp only [rcdJsonParser, h]
  refine ⟨rfl, ?_, ?_, ?_⟩ <;> rfl

/-- C4 witness: the spec example, a non-JSON panic line with a parser that
rejects it. -/
theorem claim_C4_parse_fallback_witness :
    jsonGet (rcdJsonParser (fun _ => none) (str "2023-01-01T00:00:00.000Z")
        (str "panic: something bad")) (str "level") =
      some (Json.str (str "error")) ∧
    jsonGet (rcdJsonParser (fun _ => none) (str "2023-01-01T00:00:00.000Z")
        (str "panic: something bad")) (str "source") = some (Json.str []) ∧
    jsonGet (rcdJsonParser (fun _ => none) (str "2023-01-01T00:00:00.000Z")
        (str "panic: something bad")) (str "time") =
      some (Json.str (str "2023-01-01T00:00:00.000Z")) ∧
    jsonGet (rcdJsonParser (fun _ => none) (str "2023-01-01T00:00:00.000Z")
        (str "panic: something bad")) (str "msg") =
      some (Json.str (str "panic: something bad")) :=
  claim_C4_parse_fallback (fun _ => none) (str "2023-01-01T00:00:00.000Z")
    (str "panic: something bad") rfl

/-- The JS runtime errors the dynamic evaluation of emitReady can raise. -/
inductive JsErr where
  | typeError

/-- JS property access data.k: throws TypeError when the receiver is null;
yields the field (or undefined, modelled none) on an object; yields undefined
on every other value. -/
def jsGetProp : Json → Str → Except JsErr (Option Json)
  | Json.null, _ => Except.error JsErr.typeError
  | Json.obj fs, key => Except.ok (lookupField fs key)
  | _, _ => Except.ok none

/-- JS string-method receiver (startsWith / includes / slice): any non-string
receiver, including undefined, raises TypeError. -/
def jsAsString : Option Json → Except JsErr Str
  | some (Json.str s) => Except.ok s
  | _ => Except.error JsErr.typeError

/-- Evaluate data.key as a string-method receiver: property access followed by
the string-receiver check. -/
def jsPropString (data : Json) (key : Str) : Except JsErr Str :=
  match jsGetProp data key with
  | Except.error e => Except.error e
  | Except.ok v => jsAsString v

/-- The emitReady handler body evaluated with JS dynamic semantics on an
arbitrary published JSON value, performing the source's accesses in order:
data.source.startsWith, then either data.msg.startsWith (and data.msg.slice on
a full ready match) or data.msg.includes on the else-if path. -/
def emitReadyJs (data : Json) : Except JsErr (Option Signal) :=
  match jsPropString data (str "source") with
  | Except.error e => Except.error e
  | Except.ok src =>
    if (str "rcserver/rcserver.go").isPrefixOf src then
      match jsPropString data (str "msg") with
      | Except.error e => Except.error e
      | Except.ok m =>
        if (str "Serving remote control").isPrefixOf m then
          Except.ok (some (Signal.ready (m.drop 26)))
        else if strIncludes m (str "Failed to start remote control:") then
          Except.ok (some (Signal.startError m))
        else Except.ok none
    else
      match jsPropString data (str "msg") with
      | Except.error e => Except.error e
      | Except.ok m =>
        if strIncludes m (str "Failed to start remote control:") then
          Except.ok (some (Signal.startError m))
        else Except.ok none

/-- C10: a line the runtime parser accepts is published exactly as parsed,
with no validation of the LogMessage shape; the detection handler evaluated
dynamically raises a TypeError on published values such as null or 42, and is
well-defined (returns without error) whenever the published value is an object
whose source and msg fields are strings. -/
theorem claim_C10_no_validation (parse : Str → Option Json) (now text : Str)
    (v : Json) (fs : List (Str × Json)) (src m : Str)
    (hp : parse text = some v)
    (hsrc : lookupField fs (str "source") = some (Json.str src))
    (hmsg : lookupField fs (str "msg") = some (Json.str m)) :
    rcdJsonParser parse now text = v ∧
    emitReadyJs Json.null = Except.error JsErr.typeError ∧
    emitReadyJs (Json.num 42) = Except.error JsErr.typeError ∧
    ∃ r, emitReadyJs (Json.obj fs) = Except.ok r := by
  refine ⟨by simp only [rcdJsonParser, hp], rfl, rfl, ?_⟩
  simp only [emitReadyJs, jsPropString, jsGetProp, hsrc, hmsg, jsAsString]
  by_cases h1 : (str "rcserver/rcserver.go").isPrefixOf src
  · by_cases h2 : (str "Serving remote control").isPrefixOf m
    · exact ⟨some (Signal.ready (m.drop 26)), by simp only [h1, h2, if_true]⟩
    · by_cases h3 : strIncludes m (str "Failed to start remote control:")
      · exact ⟨some (Signal.startError m),
          by simp only [h1, if_true]; rw [if_neg (by simp [h2]), if_pos h3]⟩
      · exact ⟨none,
          by simp only [h1, if_true]; rw [if_neg (by simp [h2]), if_neg (by simp [h3])]⟩
  · by_cases h3 : strIncludes m (str "Failed to start remote control:")
    · exact ⟨some (Signal.startError m),
        by rw [if_neg (by simp [h1]), if_pos h3]⟩
    · exact ⟨none, by rw [if_neg (by simp [h1]), if_neg (by simp [h3])]⟩

/-- C10 witness: a parser that accepts every line as the number 42, and an
object-shaped record with string source and msg fields. -/
theorem claim_C10_no_validation_witness :
    rcdJsonParser (fun _ => some (Json.num 42)) (str "now") (str "42") =
      Json.num 42 ∧
    emitReadyJs Json.null = Except.error JsErr.typeError ∧
    emitReadyJs (Json.num 42) = Except.error JsErr.typeError ∧
    ∃ r, emitReadyJs (Json.obj
      [(str "source", Json.str (str "rcserver/rcserver.go")),
       (str "msg", Json.str (str "Serving remote control on x"))]) =
      Except.ok r :=
  claim_C10_no_validation (fun _ => some (Json.num 42)) (str "now") (str "42")
    (Json.num 42)
    [(str "source", Json.str (str "rcserver/rcserver.go")),
     (str "msg", Json.str (str "Serving remote control on x"))]
    (str "rcserver/rcserver.go") (str "Serving remote control on x")
    rfl rfl rfl

/-! ## rcd spawn environment.

The env option of the spawn call is a JS object literal: the fixed baseline
entries, then the spread of the caller-supplied env, then the final forced
RCLONE_USE_JSON_LOG entry; a later binding of a key shadows an earlier one. -/

/-- The baseline entries of the rcd spawn environment, translated from the
object literal of the source; RCLONE_CONFIG carries the getConfigFile result. -/
def baselineEnv (configFile : String) : List (String × String) :=
  [("RCLONE_AUTO_CONFIRM", "false"),
   ("RCLONE_CONFIG", configFile),
   ("RCLONE_PASSWORD", "false"),
   ("RCLONE_RC_SERVER_WRITE_TIMEOUT", "8760h0m0s"),
   ("RCLONE_RC_SERVER_READ_TIMEOUT", "8760h0m0s"),
   ("RCLONE_RC_WEB_GUI", "false"),
   ("RCLONE_RC_NO_AUTH", "false"),
   ("RCLONE_LOG_FORMAT", ""),
   ("RCLONE_LOG_LEVEL", "NOTICE")]

/-- The environment object passed to spawn by rcd: baseline, then the caller
environment, then the forced JSON-log entry. -/
def rcdEnv (configFile : String) (env : List (String × String)) :
    List (String × String) :=
  baselineEnv configFile ++ env ++ [("RCLONE_USE_JSON_LOG", "true")]

/-- Key lookup with JS object-literal shadowing: the last binding wins. -/
def envGet (e : List (String × String)) (k : String) : Option String :=
  e.foldl (fun acc p => if p.1 = k then some p.2 else acc) none

theorem envGet_foldl_acc (k : String) : ∀ (e : List (String × String))
    (acc : Option String),
    e.foldl (fun acc p => if p.1 = k then some p.2 else acc) acc =
      (envGet e k).or acc := by
  intro e
  induction e with
  | nil => intro acc; simp [envGet]
  | cons p e ih =>
    intro acc
    show e.foldl _ (if p.1 = k then some p.2 else acc) = _
    rw [ih]
    show _ = (List.foldl _ (if p.1 = k then some p.2 else none) e).or acc
    rw [ih]
    cases hx : envGet e k with
    | some w => simp [Option.or]
    | none =>
      by_cases hp : p.1 = k <;> simp [hp, Option.or]

theorem envGet_append (a b : List (String × String)) (k : String) :
    envGet (a ++ b) k = (envGet b k).or (envGet a k) := by
  show (a ++ b).foldl _ none = _
  rw [List.foldl_append]
  exact envGet_foldl_acc k b (envGet a k)

/-- C5: the spawned daemon environment is the baseline overridden by the
caller entries, finally overridden so that RCLONE_USE_JSON_LOG is true: that
key always reads true regardless of the caller, any other key set by the
caller reads the caller value, and any other key not set by the caller reads
its baseline binding. -/
theorem claim_C5_env_layering (cf : String) (env : List (String × String))
    (k v : String) (hk : k ≠ "RCLONE_USE_JSON_LOG") :
    envGet (rcdEnv cf env) "RCLONE_USE_JSON_LOG" = some "true" ∧
    (envGet env k = some v → envGet (rcdEnv cf env) k = some v) ∧
    (envGet env k = none → envGet (rcdEnv cf env) k = envGet (baselineEnv cf) k) := by
  have hsplit : ∀ key, envGet (rcdEnv cf env) key =
      ((envGet [("RCLONE_USE_JSON_LOG", "true")] key).or (envGet env key)).or
        (envGet (baselineEnv cf) key) := by
    intro key
    rw [rcdEnv, envGet_append, envGet_append]
    cases envGet [("RCLONE_USE_JSON_LOG", "true")] key <;>
      cases envGet env key <;> simp [Option.or]
  have hlast : envGet [("RCLONE_USE_JSON_LOG", "true")] k = none := by
    show (if ("RCLONE_USE_JSON_LOG" : String) = k then _ else none) = none
    exact if_neg fun h => hk h.symm
  refine ⟨?_, ?_, ?_⟩
  · rw [hsplit]
    rfl
  · intro h
    rw [hsplit, hlast, h]
    rfl
  · intro h
    rw [hsplit, hlast, h]
    cases envGet (baselineEnv cf) k <;> rfl

/-- C5 witness: a caller that overrides the log level and tries to switch the
JSON log off: the JSON log stays on, the log-level override wins. -/
theorem claim_C5_env_layering_witness :
    envGet (rcdEnv "/tmp/rclone.conf"
      [("RCLONE_LOG_LEVEL", "DEBUG"), ("RCLONE_USE_JSON_LOG", "false")])
      "RCLONE_USE_JSON_LOG" = some "true" ∧
    envGet (rcdEnv "/tmp/rclone.conf"
      [("RCLONE_LOG_LEVEL", "DEBUG"), ("RCLONE_USE_JSON_LOG", "false")])
      "RCLONE_LOG_LEVEL" = some "DEBUG" := by
  have h := claim_C5_env_layering "/tmp/rclone.conf"
    [("RCLONE_LOG_LEVEL", "DEBUG"), ("RCLONE_USE_JSON_LOG", "false")]
    "RCLONE_LOG_LEVEL" "DEBUG" (by decide)
  exact ⟨h.1, h.2.1 (by decide)⟩

/-! ## VersionProbe (getVersion) and ConfigFileLocator (getConfigFile).

Both run the binary synchronously; the captured combined output is modelled
as an optional string (none when nothing was captured, which is the only case
reaching the throw in the source). -/

/-- Split on a separator character; always at least one (possibly empty)
piece, as with JS String.split. -/
def splitOnChar (c : Char) : Str → List Str
  | [] => [[]]
  | d :: t =>
    let r := splitOnChar c t
    if d = c then [] :: r
    else
      match r with
      | [] => [[d]]
      | x :: xs => (d :: x) :: xs

/-- JS split on the newline regex of getVersion: a newline ends each piece
and consumes an immediately preceding carriage return. -/
def splitCrLf (s : Str) : List Str :=
  (splitOnChar '\n' s).map
    (fun l => if l.getLast? = some '\r' then l.dropLast else l)

/-- JS split on a whitespace run: a run of whitespace separates two pieces, so
a leading or trailing run contributes an empty piece, as with the whitespace
regex split of the source.  The flag records being inside a run. -/
def splitWsGo : Str → Str → Bool → List Str
  | [], acc, _ => [acc.reverse]
  | c :: t, acc, inRun =>
    if c.isWhitespace then
      if inRun then splitWsGo t [] true
      else acc.reverse :: splitWsGo t [] true
    else splitWsGo t (c :: acc) false

/-- JS String.split of the source's whitespace regex. -/
def jsSplitWs (s : Str) : List Str := splitWsGo s [] false

/-- Non-empty and all digits. -/
def isDigits (s : Str) : Bool := !s.isEmpty && s.all Char.isDigit

/-- A plain numeric major.minor.patch version. -/
def isSemverTriple (s : Str) : Bool :=
  match splitOnChar '.' s with
  | [a, b, c] => isDigits a && isDigits b && isDigits c
  | _ => false

/-- Modelled from the semver library used by the source: clean trims the
string, strips a leading run of = and v characters, and returns the canonical
version when the rest parses as a version, null (none) otherwise.  The model
covers plain numeric major.minor.patch versions, the only forms the claims
exercise. -/
def semverClean (s : Str) : Option Str :=
  let t := (jsTrim s).dropWhile (fun c => c = '=' || c = 'v')
  if isSemverTriple t then some t else none

/-- getVersion, translated from the source: with captured combined output,
trim it, take the first line, take the last whitespace-separated token of
that line, and return its semver-cleaned form (possibly null); with no
captured output, throw the version-detection error.  shift and pop are safe
here because both splits always return a non-empty list. -/
def getVersion (output : Option Str) : Except Str (Option Str) :=
  match output with
  | some out =>
    Except.ok (semverClean
      ((jsSplitWs ((splitCrLf (jsTrim out)).headD [])).getLastD []))
  | none => Except.error (str "Cannot detect Rclone version.")

/-- C6 counterexample: output whose first-line last token is not a version
makes getVersion return a null version instead of failing with the
version-detection error the claim requires. -/
theorem claim_C6_counterexample :
    getVersion (some (str "rclone")) = Except.ok none := rfl

/-- C6 amended: getVersion returns the semver-cleaned last whitespace token of
the first line of the trimmed captured output — for the spec example it is the
canonical 1.60.0 — and fails with the version-detection error when no output
is captured; when the token does not parse as a version it returns a null
version rather than raising the error. -/
theorem claim_C6_version (out : Str) :
    getVersion none = Except.error (str "Cannot detect Rclone version.") ∧
    getVersion (some out) =
      Except.ok (semverClean
        ((jsSplitWs ((splitCrLf (jsTrim out)).headD [])).getLastD [])) ∧
    getVersion (some (str "rclone v1.60.0\n- os/version: ubuntu 22.04")) =
      Except.ok (some (str "1.60.0")) := by
  exact ⟨rfl, rfl, rfl⟩

/-- getDefaultConfigFile, translated from the source: with captured output,
return the second line of the trimmed output (the empty string when there is
no second line), trimmed again; with no captured output, throw the
config-file detection error. -/
def getDefaultConfigFile (output : Option Str) : Except Str Str :=
  match output with
  | some out =>
    Except.ok (jsTrim ((splitOnChar '\n' (jsTrim out)).getD 1 []))
  | none => Except.error (str "Cannot detect default Rclone file.")

/-- getConfigFile, translated from the source: a truthy config path supplied
at construction is returned as-is (JS truthiness: the empty string is falsy),
otherwise fall back to the detected default config file. -/
def getConfigFile (configFile : Option Str) (output : Option Str) :
    Except Str Str :=
  match configFile with
  | some cf => if cf ≠ [] then Except.ok cf else getDefaultConfigFile output
  | none => getDefaultConfigFile output

/-- C7 counterexample: empty captured output makes the default-config lookup
return the empty string instead of failing with the detection error the claim
requires. -/
theorem claim_C7_counterexample :
    getConfigFile none (some []) = Except.ok [] := rfl

/-- C7 amended: a non-empty explicit config path is returned verbatim,
independently of any subprocess output; with no explicit path the default is
the trimmed second line of the trimmed subprocess output (illustrated on a
real output shape), and the detection error is raised exactly when no output
is captured — captured output without a second line yields the empty string
rather than an error. -/
theorem claim_C7_config_file (p : Str) (out out2 : Option Str) (hp : p ≠ []) :
    getConfigFile (some p) out = Except.ok p ∧
    getConfigFile (some p) out = getConfigFile (some p) out2 ∧
    getConfigFile none none =
      Except.error (str "Cannot detect default Rclone file.") ∧
    (∀ o, getConfigFile none (some o) =
      Except.ok (jsTrim ((splitOnChar '\n' (jsTrim o)).getD 1 []))) ∧
    getConfigFile none
        (some (str "Configuration file is stored at:\n/home/u/.config/rclone/rclone.conf\n")) =
      Except.ok (str "/home/u/.config/rclone/rclone.conf") := by
  refine ⟨?_, ?_, rfl, fun o => rfl, rfl⟩
  · simp [getConfigFile, hp]
  · simp [getConfigFile, hp]

/-- C7 witness: the amended theorem at a concrete explicit path and two
different subprocess outputs. -/
theorem claim_C7_config_file_witness :
    getConfigFile (some (str "/etc/rclone.conf")) none =
      Except.ok (str "/etc/rclone.conf") ∧
    getConfigFile (some (str "/etc/rclone.conf")) none =
      getConfigFile (some (str "/etc/rclone.conf")) (some []) := by
  have h := claim_C7_config_file (str "/etc/rclone.conf") none (some [])
    (by decide)
  exact ⟨h.1, h.2.1⟩

/-! ## RemoteCommandClient: request formation (remoteCommand).

The HTTP transport is external; what the source determines is the single
request description handed to fetch: method, composed URI, headers, and the
serialized body.  Buffer base64 and JSON.stringify are modelled concretely. -/

/-- UTF-8 bytes of one character, from its code point. -/
def utf8Bytes (c : Char) : List Nat :=
  let n := c.toNat
  if n < 0x80 then [n]
  else if n < 0x800 then [0xC0 + n / 0x40, 0x80 + n % 0x40]
  else if n < 0x10000 then
    [0xE0 + n / 0x1000, 0x80 + n / 0x40 % 0x40, 0x80 + n % 0x40]
  else
    [0xF0 + n / 0x40000, 0x80 + n / 0x1000 % 0x40, 0x80 + n / 0x40 % 0x40,
     0x80 + n % 0x40]

/-- UTF-8 byte sequence of a JS string, as Buffer.from produces. -/
def strBytes (s : Str) : List Nat := (s.map utf8Bytes).flatten

/-- The base64 alphabet. -/
def base64Alphabet : Str :=
  str "ABCDEFGHIJKLMNOPQRSTUVWXYZabcdefghijklmnopqrstuvwxyz0123456789+/"

/-- The base64 digit of a 6-bit value. -/
def b64Char (n : Nat) : Char := base64Alphabet.getD n '?'

/-- Standard base64 of a byte sequence, three bytes to four digits with
padding. -/
def b64Groups : List Nat → Str
  | [] => []
  | [a] => [b64Char (a / 4), b64Char (a % 4 * 16), '=', '=']
  | [a, b] => [b64Char (a / 4), b64Char (a % 4 * 16 + b / 16), b64Char (b % 16 * 4), '=']
  | a :: b :: c :: rest =>
    b64Char (a / 4) :: b64Char (a % 4 * 16 + b / 16) ::
      b64Char (b % 16 * 4 + c / 64) :: b64Char (c % 64) :: b64Groups rest

/-- The base64 rendering of a JS string's Buffer, as the source builds the
Basic credential. -/
def base64 (s : Str) : Str := b64Groups (strBytes s)

/-- Escape of one JSON string character: quote, backslash and newline, the
escapes the claims exercise. -/
def escapeJson : Str → Str
  | [] => []
  | c :: t =>
    if c = '"' ∨ c = '\\' then '\\' :: c :: escapeJson t
    else if c = '\n' then '\\' :: 'n' :: escapeJson t
    else c :: escapeJson t

mutual

/-- Modelled from the runtime JSON.stringify on the JSON values of this
development. -/
def jsonStringify : Json → Str
  | Json.null => str "null"
  | Json.bool true => str "true"
  | Json.bool false => str "false"
  | Json.num n => str (toString n)
  | Json.str s => '"' :: escapeJson s ++ ['"']
  | Json.arr xs => '[' :: stringifyElems xs ++ [']']
  | Json.obj fs => Char.ofNat 123 :: stringifyFields fs ++ [Char.ofNat 125]

/-- Comma-separated serialization of array elements. -/
def stringifyElems : List Json → Str
  | [] => []
  | [x] => jsonStringify x
  | x :: rest => jsonStringify x ++ ',' :: stringifyElems rest

/-- Comma-separated serialization of object fields. -/
def stringifyFields : List (Str × Json) → Str
  | [] => []
  | [(k, v)] => '"' :: escapeJson k ++ '"' :: ':' :: jsonStringify v
  | (k, v) :: rest =>
    '"' :: escapeJson k ++ '"' :: ':' :: jsonStringify v ++ ',' :: stringifyFields rest

end

/-- The caller-supplied address of a running daemon. -/
structure ServerInfo where
  auth : Str
  uri : Str

/-- The one request description remoteCommand hands to the HTTP client. -/
structure HttpRequest where
  method : Str
  uri : Str
  authorization : Option Str
  contentType : Str
  body : Str

/-- JS truthiness of a JSON value, for the payload default. -/
def jsTruthy : Json → Bool
  | Json.null => false
  | Json.bool b => b
  | Json.num n => n ≠ 0
  | Json.str s => s ≠ []
  | Json.arr _ => true
  | Json.obj _ => true

/-- payload or the empty object, as the source defaults the body. -/
def jsOrEmptyObj : Option Json → Json
  | some v => if jsTruthy v then v else Json.obj []
  | none => Json.obj []

/-- remoteCommand's request construction, translated from the source: one
POST to server.uri concatenated with the endpoint; the Authorization header
holds Basic plus the base64 Buffer rendering of auth when auth is truthy and
is null (absent) otherwise; JSON content type; the body is the JSON
serialization of the payload defaulted to the empty object. -/
def remoteCommand (server : ServerInfo) (endpoint : Str)
    (payload : Option Json) : HttpRequest :=
  { method := str "POST",
    uri := server.uri ++ endpoint,
    authorization :=
      if server.auth ≠ [] then some (str "Basic " ++ base64 server.auth)
      else none,
    contentType := str "application/json",
    body := jsonStringify (jsOrEmptyObj payload) }

/-- C8: remoteCommand issues exactly one POST request, to ServerInfo.uri
concatenated with the endpoint, with JSON content type and a body equal to
the JSON serialization of the payload (of the empty object when no payload is
given), and it carries a Basic Authorization header of the base64 of auth
exactly when auth is non-empty.  The payload, when present, is an object (as
its JSDoc type states), hence truthy. -/
theorem claim_C8_request (server : ServerInfo) (endpoint : Str)
    (payload : Option Json)
    (hp : ∀ v, payload = some v → jsTruthy v = true) :
    (remoteCommand server endpoint payload).method = str "POST" ∧
    (remoteCommand server endpoint payload).uri = server.uri ++ endpoint ∧
    (remoteCommand server endpoint payload).contentType =
      str "application/json" ∧
    (remoteCommand server endpoint payload).body =
      jsonStringify (payload.getD (Json.obj [])) ∧
    (server.auth ≠ [] →
      (remoteCommand server endpoint payload).authorization =
        some (str "Basic " ++ base64 server.auth)) ∧
    (server.auth = [] →
      (remoteCommand server endpoint payload).authorization = none) := by
  refine ⟨rfl, rfl, rfl, ?_, ?_, ?_⟩
  · show jsonStringify (jsOrEmptyObj payload) = _
    cases payload with
    | none => rfl
    | some v => simp [jsOrEmptyObj, hp v rfl]
  · intro h
    simp [remoteCommand, h]
  · intro h
    simp [remoteCommand, h]

/-- C8 witness: a stats call against a local daemon with Basic credentials and
no payload; the Authorization digits are the base64 of the credential bytes
and the body is the empty JSON object. -/
theorem claim_C8_request_witness :
    (remoteCommand ⟨str "user:pass", str "http://127.0.0.1:5572/"⟩
        (str "core/stats") none).uri =
      str "http://127.0.0.1:5572/core/stats" ∧
    (remoteCommand ⟨str "user:pass", str "http://127.0.0.1:5572/"⟩
        (str "core/stats") none).authorization =
      some (str "Basic dXNlcjpwYXNz") ∧
    (remoteCommand ⟨str "user:pass", str "http://127.0.0.1:5572/"⟩
        (str "core/stats") none).body =
      [Char.ofNat 123, Char.ofNat 125] := by
  have h := claim_C8_request ⟨str "user:pass", str "http://127.0.0.1:5572/"⟩
    (str "core/stats") none (fun v hv => by cases hv)
  refine ⟨h.2.1.trans (by decide), ?_, ?_⟩
  · exact (h.2.2.2.2.1 (by decide)).trans (by decide)
  · refine (h.2.2.2.1).trans ?_
    show jsonStringify (Json.obj []) = _
    rw [jsonStringify, stringifyFields]
    rfl

/-! ## RemoteCommandClient: cancellation (abort and the result future).

Modelled from the AbortController and fetch behaviour the source wires up:
the returned abort operation delegates to abortController.abort, whose signal
is passed to the one fetch call; aborting marks the signal (idempotently) and
settles a pending request with the cancellation outcome; a settled future
never settles again. -/

/-- How the result future of one remoteCommand call settles. -/
inductive CmdOutcome where
  | success
  | commandTransportFailed
  | commandAborted
deriving DecidableEq

/-- The observable events of one call: the caller's abort, a transport
failure, a successful completion. -/
inductive CmdEvent where
  | abortCall
  | transportFail
  | complete
deriving DecidableEq

/-- State of one remoteCommand call: the AbortController signal flag and how
(whether) the result future has settled. -/
structure CmdState where
  signalAborted : Bool
  settled : Option CmdOutcome
deriving DecidableEq

/-- The returned abort operation: abortController.abort marks the signal
aborted whatever its state; per the fetch contract an abort settles a pending
request with the cancellation outcome and leaves a settled one untouched. -/
def abortStep (st : CmdState) : CmdState :=
  { signalAborted := true,
    settled :=
      match st.settled with
      | some o => some o
      | none => some CmdOutcome.commandAborted }

/-- One event of the call; a settled future never settles again. -/
def cmdStep (st : CmdState) : CmdEvent → CmdState
  | CmdEvent.abortCall => abortStep st
  | CmdEvent.transportFail =>
    if st.settled = none then
      { st with settled := some CmdOutcome.commandTransportFailed }
    else st
  | CmdEvent.complete =>
    if st.settled = none then { st with settled := some CmdOutcome.success }
    else st

/-- A fresh call: signal clear, future pending. -/
def initCall : CmdState := { signalAborted := false, settled := none }

/-- The call state after a sequence of events. -/
def runCall (events : List CmdEvent) : CmdState := events.foldl cmdStep initCall

theorem settled_persists : ∀ (events : List CmdEvent) (st : CmdState)
    (o : CmdOutcome), st.settled = some o →
    (events.foldl cmdStep st).settled = some o := by
  intro events
  induction events with
  | nil => intro st o h; exact h
  | cons e rest ih =>
    intro st o h
    rw [List.foldl_cons]
    refine ih _ o ?_
    cases e with
    | abortCall => simp [cmdStep, abortStep, h]
    | transportFail => simp [cmdStep, h]
    | complete => simp [cmdStep, h]

/-- C9: the abort operation is idempotent and always safe: aborting twice is
the same as aborting once, an abort after the future has settled leaves the
outcome unchanged, and an abort that arrives while the request is still
pending settles the future with the cancellation outcome — never with the
transport-failure outcome — regardless of what happens afterwards. -/
theorem claim_C9_abort (st : CmdState) (o : CmdOutcome)
    (pre post : List CmdEvent)
    (hset : st.settled = some o) (hpend : (runCall pre).settled = none) :
    abortStep (abortStep st) = abortStep st ∧
    (abortStep st).settled = some o ∧
    (runCall (pre ++ CmdEvent.abortCall :: post)).settled =
      some CmdOutcome.commandAborted ∧
    (runCall (pre ++ CmdEvent.abortCall :: post)).settled ≠
      some CmdOutcome.commandTransportFailed := by
  have hrun : (runCall (pre ++ CmdEvent.abortCall :: post)).settled =
      some CmdOutcome.commandAborted := by
    rw [runCall, List.foldl_append, List.foldl_cons]
    refine settled_persists post _ _ ?_
    show (abortStep (runCall pre)).settled = _
    simp [abortStep, hpend]
  refine ⟨?_, ?_, hrun, ?_⟩
  · cases hs : st.settled <;> simp [abortStep, hs]
  · simp [abortStep, hset]
  · rw [hrun]
    simp

/-- C9 witness: a future already settled with success is unaffected by abort,
and a pending call aborted before a transport failure settles with the
cancellation outcome, not the transport failure. -/
theorem claim_C9_abort_witness :
    abortStep (abortStep (CmdState.mk false (some CmdOutcome.success))) =
      abortStep (CmdState.mk false (some CmdOutcome.success)) ∧
    (abortStep (CmdState.mk false (some CmdOutcome.success))).settled =
      some CmdOutcome.success ∧
    (runCall ([] ++ CmdEvent.abortCall :: [CmdEvent.transportFail])).settled =
      some CmdOutcome.commandAborted ∧
    (runCall ([] ++ CmdEvent.abortCall :: [CmdEvent.transportFail])).settled ≠
      some CmdOutcome.commandTransportFailed :=
  claim_C9_abort (CmdState.mk false (some CmdOutcome.success))
    CmdOutcome.success [] [CmdEvent.transportFail] rfl rfl
